import Mathlib

/-!
Shallow embedding of `src/pg2avro/pg2avro.py` (kiwicom/pg2avro).

Python values flowing through the library (column descriptions, schema
dictionaries, rows and coerced rows) are modelled by one inductive type `Py`.
Machine-level caveats of the model, stated once here:

* Python `float` values are modelled exactly as rationals (`ℚ`); in particular
  `datetime.timestamp()` is modelled by the exact number of microseconds
  since the POSIX epoch carried by the `Py.datetime` constructor (divided by
  `10^6`), and `int(x)` on a number is exact truncation toward zero.
* `datetime.date` is modelled by its Gregorian calendar fields; Python date
  subtraction `(v - date(1970, 1, 1)).days` is computed through the proleptic
  Gregorian ordinal exactly as CPython's `date.toordinal` does.
* Python dictionaries are modelled as insertion-ordered association lists with
  string keys (the only keys the library ever creates or reads); assignment
  updates in place or appends, as CPython preserves insertion order.
* Exceptions are modelled by `Except Err`.
-/

namespace Pg2Avro

/-! ## Python dates (fields of `datetime.date`) -/

/-- Model of `datetime.date`: a proleptic Gregorian calendar date. -/
structure PyDate where
  year : ℕ
  month : ℕ
  day : ℕ
deriving DecidableEq, Repr

/-- CPython `datetime._is_leap`. -/
def isLeap (y : ℕ) : Bool :=
  y % 4 == 0 && (y % 100 != 0 || y % 400 == 0)

/-- CPython `datetime._days_in_month` (month clamped by the caller's data). -/
def daysInMonth (y m : ℕ) : ℕ :=
  match m with
  | 1 => 31
  | 2 => if isLeap y then 29 else 28
  | 3 => 31
  | 4 => 30
  | 5 => 31
  | 6 => 30
  | 7 => 31
  | 8 => 31
  | 9 => 30
  | 10 => 31
  | 11 => 30
  | _ => 31

/-- CPython `datetime._days_before_year`: days before January 1st of `y`. -/
def daysBeforeYear (y : ℕ) : ℕ :=
  let n := y - 1
  n * 365 + n / 4 - n / 100 + n / 400

/-- CPython `datetime._days_before_month`: days in year `y` preceding month `m`. -/
def daysBeforeMonth (y : ℕ) : ℕ → ℕ
  | 0 => 0
  | 1 => 0
  | m + 1 => daysBeforeMonth y m + daysInMonth y m

/-- CPython `date.toordinal`: day number in the proleptic Gregorian calendar,
with January 1st of year 1 as ordinal 1. -/
def toordinal (d : PyDate) : ℕ :=
  daysBeforeYear d.year + daysBeforeMonth d.year d.month + d.day

/-- Python `(v - date(1970, 1, 1)).days`: the signed number of days between a
date and the POSIX epoch date. -/
def dateToEpochDays (d : PyDate) : ℤ :=
  (toordinal d : ℤ) - (toordinal ⟨1970, 1, 1⟩ : ℤ)

/-! ## Python values -/

/-- Model of the Python values handled by pg2avro: scalars, containers, the
`datetime` family, the two psycopg2 range types, plain objects (as their
attribute dictionary), and SQLAlchemy `Column` objects.

`datetime` carries the exact value of `.timestamp()` as a signed count of
microseconds since the POSIX epoch (CPython datetimes have exactly
microsecond resolution); `timedelta` carries CPython's normalized fields
(days may be negative, `0 ≤ secs < 86400`, `0 ≤ usecs < 10^6`);
`dateRange` carries the two date bounds and `numericRange` its two raw
bounds. An `sqla` value models an SQLAlchemy `Column`: its name,
`str(column.type)`, the type's `__visit_name__`, the item type's
`__visit_name__` (read only when the former is `"ARRAY"`), and its
nullability. -/
inductive Py where
  | none
  | bool (b : Bool)
  | int (n : ℤ)
  | float (q : ℚ)
  | str (s : String)
  | tuple (xs : List Py)
  | list (xs : List Py)
  | set (xs : List Py)
  | dict (kvs : List (String × Py))
  | datetime (usec : ℤ)
  | date (d : PyDate)
  | timedelta (days : ℤ) (secs : ℕ) (usecs : ℕ)
  | dateRange (lo hi : PyDate)
  | numericRange (lo hi : Py)
  | obj (attrs : List (String × Py))
  | sqla (name : String) (typeRepr : String) (visitName : String)
         (itemVisitName : String) (nullable : Bool)
deriving Repr

/-- Model of the Python exceptions the library can raise. -/
inductive Err where
  | unsupportedColumnType (typeName : String)
  | missingRequiredAttributes (provided required : List String)
  | conversionFailed (typeName : String)
  | attributeError (attr : String)
  | keyError (key : String)
  | typeError (msg : String)
  | unsupportedRowType
  | indexError
deriving DecidableEq, Repr

/-- First-match lookup in an insertion-ordered string-keyed dictionary. -/
def sGet {α : Type} : List (String × α) → String → Option α
  | [], _ => Option.none
  | (k', v) :: r, k => if k = k' then some v else sGet r k

/-- CPython dict assignment `d[k] = v`: update in place if the key exists,
append otherwise. -/
def dictSet {α : Type} : List (String × α) → String → α → List (String × α)
  | [], k, v => [(k, v)]
  | (k', v') :: r, k, v => if k = k' then (k', v) :: r else (k', v') :: dictSet r k v

/-- Python `str.lower`, restricted to the ASCII range the library's type names
use. -/
def pyLower (s : String) : String :=
  String.mk (s.data.map Char.toLower)

/-- Python truthiness (`bool(v)`), as used by `if column.nullable` and `x or y`.
Values with no falsy cases in this model are truthy. -/
def pyTruthy : Py → Bool
  | .none => false
  | .bool b => b
  | .int n => n ≠ 0
  | .float q => q ≠ 0
  | .str s => s ≠ ""
  | .tuple xs => !xs.isEmpty
  | .list xs => !xs.isEmpty
  | .set xs => !xs.isEmpty
  | .dict kvs => !kvs.isEmpty
  | _ => true

/-- Python `x or y`. -/
def pyOr (x y : Py) : Py :=
  if pyTruthy x then x else y

/-- Python `int(v.timestamp() * 1000)` for a datetime carrying `usec`
microseconds since the epoch: `v.timestamp()` is the exact rational
`usec / 10^6` seconds, so multiplying by 1000 and truncating toward zero
(Python `int()`) is exactly the zero-truncating division of `usec` by 1000. -/
def datetimeEpochMillis (usec : ℤ) : ℤ :=
  Int.tdiv usec 1000

/-- True exactly on `Py.none`; Python `v is None`. -/
def Py.isNone : Py → Bool
  | .none => true
  | _ => false

/-! ## String helpers for the standard-library calls the source makes -/

/-- Python `pat in s` on lists of characters. -/
def charsContain (pat : List Char) : List Char → Bool
  | [] => pat.isEmpty
  | c :: rest => pat.isPrefixOf (c :: rest) || charsContain pat rest

/-- Python substring test `pat in s`. -/
def strContains (s pat : String) : Bool :=
  charsContain pat.data s.data

/-- Python `re.findall(r"\d+", s)`: the maximal runs of decimal digits in `s`,
each read as a number. `cur = some n` carries the run in progress. -/
def digitRuns : List Char → Option ℕ → List ℕ
  | [], Option.none => []
  | [], some n => [n]
  | c :: rest, Option.none =>
      if c.isDigit then digitRuns rest (some (c.toNat - 48))
      else digitRuns rest Option.none
  | c :: rest, some n =>
      if c.isDigit then digitRuns rest (some (n * 10 + (c.toNat - 48)))
      else n :: digitRuns rest Option.none

/-- Python `re.findall(r"\d+", s)` with `int` applied to each match. -/
def findallDigits (s : String) : List ℕ :=
  digitRuns s.data Option.none

/-- Left-pad the decimal form of `n` with zeros to width `w`. -/
def padZeros (w : ℕ) (n : ℕ) : String :=
  let s := toString n
  String.mk (List.replicate (w - s.length) '0') ++ s

/-- CPython `timedelta.__str__` for normalized fields
(`0 ≤ secs < 86400`, `0 ≤ usecs < 10^6`). -/
def pyTimedeltaStr (days : ℤ) (secs usecs : ℕ) : String :=
  let hh := secs / 3600
  let mm := secs % 3600 / 60
  let ss := secs % 60
  let base := toString hh ++ ":" ++ padZeros 2 mm ++ ":" ++ padZeros 2 ss
  let base :=
    if days ≠ 0 then
      toString days ++ " day" ++ (if days.natAbs ≠ 1 then "s" else "") ++ ", " ++ base
    else base
  if usecs ≠ 0 then base ++ "." ++ padZeros 6 usecs else base

/-- Lowercase hexadecimal digit. -/
def hexDigit (n : ℕ) : Char :=
  if n < 10 then Char.ofNat (48 + n) else Char.ofNat (87 + n)

/-- Four-digit lowercase hexadecimal form used by `\uXXXX` escapes. -/
def hex4 (n : ℕ) : String :=
  String.mk [hexDigit (n / 4096 % 16), hexDigit (n / 256 % 16),
             hexDigit (n / 16 % 16), hexDigit (n % 16)]

/-- CPython `json.encoder.py_encode_basestring_ascii` escape of one character
(`ensure_ascii=True`, the `json.dumps` default). -/
def jsonEscapeChar (c : Char) : String :=
  if c = '"' then "\\\""
  else if c = '\\' then "\\\\"
  else if c = '\n' then "\\n"
  else if c = '\r' then "\\r"
  else if c = '\t' then "\\t"
  else if c.toNat = 8 then "\\b"
  else if c.toNat = 12 then "\\f"
  else if c.toNat < 32 then "\\u" ++ hex4 c.toNat
  else if c.toNat < 127 then String.mk [c]
  else if c.toNat < 65536 then "\\u" ++ hex4 c.toNat
  else
    let n := c.toNat - 65536
    "\\u" ++ hex4 (55296 + n / 1024) ++ "\\u" ++ hex4 (56320 + n % 1024)

/-- JSON string literal for `s`, as `json.dumps` produces it. -/
def jsonEncodeString (s : String) : String :=
  "\"" ++ String.join (s.data.map jsonEscapeChar) ++ "\""

/-- Decimal expansion digits of `rem / den` (`0 < rem < den`), stopping when
the remainder vanishes or the fuel runs out. Python floats are dyadic
rationals, whose expansions terminate well within the fuel used below. -/
def fracDigits : ℕ → ℕ → ℕ → String
  | 0, _, _ => ""
  | _, 0, _ => ""
  | fuel + 1, rem, den =>
      let d := rem * 10 / den
      let rem' := rem * 10 % den
      String.mk [Char.ofNat (48 + d)] ++ fracDigits fuel rem' den

/-- Model of CPython `repr(float)` on the exact rational carried by the model:
sign, integer part, and the exact terminating decimal expansion (with the
trailing `.0` CPython prints for integral floats). -/
def floatRepr (q : ℚ) : String :=
  let sign := if q < 0 then "-" else ""
  let n := q.num.natAbs
  let d := q.den
  if n % d = 0 then sign ++ toString (n / d) ++ ".0"
  else sign ++ toString (n / d) ++ "." ++ fracDigits 1200 (n % d) d

/-- CPython `json.dumps` with default arguments (separators `", "` and
`": "`, `ensure_ascii=True`), fuel-indexed so that it reduces by kernel
computation. Non-serializable values (sets, dates, objects, ...) raise
`TypeError`, as `json.dumps` does. -/
def jsonDumpsF : ℕ → Py → Except Err String
  | 0, _ => throw (.typeError "recursion")
  | _ + 1, .none => pure "null"
  | _ + 1, .bool b => pure (if b then "true" else "false")
  | _ + 1, .int n => pure (toString n)
  | _ + 1, .float q => pure (floatRepr q)
  | _ + 1, .str s => pure (jsonEncodeString s)
  | fuel + 1, .tuple xs => do
      let parts ← xs.mapM (jsonDumpsF fuel)
      pure ("[" ++ String.intercalate ", " parts ++ "]")
  | fuel + 1, .list xs => do
      let parts ← xs.mapM (jsonDumpsF fuel)
      pure ("[" ++ String.intercalate ", " parts ++ "]")
  | fuel + 1, .dict kvs => do
      let parts ← kvs.mapM (fun kv => do
        let v ← jsonDumpsF fuel kv.2
        pure (jsonEncodeString kv.1 ++ ": " ++ v))
      pure ("\x7b" ++ String.intercalate ", " parts ++ "\x7d")
  | _ + 1, _ => throw (.typeError "not JSON serializable")

/-- CPython `json.dumps` with default arguments. The fuel models CPython's
default recursion limit of 1000 frames: `json.dumps` on structures nested
more deeply raises `RecursionError`, modelled by the fuel-exhaustion
`TypeError` branch of `jsonDumpsF`. -/
def jsonDumps (v : Py) : Except Err String :=
  jsonDumpsF 1000 v

/-! ## Type-mapping tables (module-level constants of `pg2avro.py`) -/

/-- `AVRO_POSTGRES_MAP`: Avro primitive type → Postgres type names. -/
def AVRO_POSTGRES_MAP : List (String × List String) :=
  [("boolean", ["bool", "boolean"]),
   ("string", ["char", "character", "bpchar", "enum", "json", "jsonb", "inet",
               "text", "uuid", "varchar", "character varying", "interval"]),
   ("int", ["smallint", "integer", "int", "int2", "int4", "date", "time"]),
   ("long", ["bigint", "int8", "timestamp", "timestamptz",
             "timestamp without time zone", "timestamp with time zone"]),
   ("float", ["real", "float4"]),
   ("double", ["float8", "double precision", "double_precision"]),
   ("array", ["array", "daterange", "int4range", "int2vector"]),
   ("bytes", ["numeric"])]

/-- `ARRAY_TYPES` (defined in the source; unused by its functions). -/
def ARRAY_TYPES : List String := ["array", "daterange", "int4range"]

/-- `LOGICAL_TYPES_AVRO_MAP`: Avro logical type → Postgres type names. -/
def LOGICAL_TYPES_AVRO_MAP : List (String × List String) :=
  [("timestamp-millis", ["time", "timestamp", "timestamptz",
                         "timestamp without time zone", "timestamp with time zone"]),
   ("date", ["date"]),
   ("decimal", ["numeric"])]

/-- Flip a grouped map into a key-to-value association list, as the dict
comprehensions at lines 61-70 of the source do. Neither grouped map repeats a
Postgres type name, so first-match lookup agrees with the Python dict. -/
def flipMap (m : List (String × List String)) : List (String × String) :=
  (m.map (fun p => p.2.map (fun t => (t, p.1)))).flatten

/-- `TYPE_MAP`: Postgres type name → Avro primitive type. -/
def TYPE_MAP : List (String × String) := flipMap AVRO_POSTGRES_MAP

/-- `LOGICAL_TYPES_MAP`: Postgres type name → Avro logical type. -/
def LOGICAL_TYPES_MAP : List (String × String) := flipMap LOGICAL_TYPES_AVRO_MAP

/-- `REQUIRED_COLUMN_ATTRIBUTES`. -/
def REQUIRED_COLUMN_ATTRIBUTES : List String := ["name", "type"]

/-- Python `set(REQUIRED_COLUMN_ATTRIBUTES) <= set(attributes)`. -/
def hasRequiredAttributes (attributes : List String) : Bool :=
  REQUIRED_COLUMN_ATTRIBUTES.all (fun a => attributes.contains a)

/-! ## Column normalization -/

/-- `ColumnMapping`: the caller-supplied names under which the five column
attributes are found on the caller's dicts or objects. -/
structure ColumnMapping where
  name : String
  type : String
  nullable : String
  numeric_precision : String
  numeric_scale : String

/-- Attribute dictionary of a normalized column: the `__dict__` of the
internal `Column` class (its `__init__` assigns `name`, `type`, `nullable`,
`numeric_scale`, `numeric_precision`, in that order). -/
def mkColumnBag (name type nullable numeric_scale numeric_precision : Py) :
    List (String × Py) :=
  [("name", name), ("type", type), ("nullable", nullable),
   ("numeric_scale", numeric_scale), ("numeric_precision", numeric_precision)]

/-- `_check_required_attributes`: raise when `name` or `type` is missing. The
raised exception's message interpolates both the provided attributes and
`REQUIRED_COLUMN_ATTRIBUTES`; the model carries both lists on the error. -/
def _check_required_attributes (attributes : List String) : Except Err Unit :=
  if hasRequiredAttributes attributes then pure ()
  else throw (.missingRequiredAttributes attributes REQUIRED_COLUMN_ATTRIBUTES)

/-- Python `column.get(key, default)` on a dict column. -/
def dGet (d : List (String × Py)) (k : String) (default : Py) : Py :=
  (sGet d k).getD default

/-- `_dict_to_column`: build the internal `Column` from a dict, through the
mapping when one is given, otherwise checking the required keys first. -/
def _dict_to_column (d : List (String × Py)) (cm : Option ColumnMapping) :
    Except Err (List (String × Py)) :=
  match cm with
  | some m =>
      pure (mkColumnBag (dGet d m.name .none) (dGet d m.type .none)
        (dGet d m.nullable (.bool true)) (dGet d m.numeric_scale .none)
        (dGet d m.numeric_precision .none))
  | Option.none => do
      _check_required_attributes (d.map Prod.fst)
      pure (mkColumnBag (dGet d "name" .none) (dGet d "type" .none)
        (dGet d "nullable" (.bool true)) (dGet d "numeric_scale" .none)
        (dGet d "numeric_precision" .none))

/-- Python `getattr(obj, attr)` (no default): attribute lookup that raises
`AttributeError` when absent. Generic objects expose their attribute
dictionary; an SQLAlchemy column exposes the attributes the source reads
(`name`, `nullable`); every other value has no readable attributes in this
model. -/
def pyGetattr (v : Py) (attr : String) : Except Err Py :=
  match v with
  | .obj attrs =>
      match sGet attrs attr with
      | some x => pure x
      | Option.none => throw (.attributeError attr)
  | .sqla name _ _ _ nullable =>
      if attr = "name" then pure (.str name)
      else if attr = "nullable" then pure (.bool nullable)
      else throw (.attributeError attr)
  | _ => throw (.attributeError attr)

/-- Python `getattr(obj, attr, default)`. -/
def pyGetattrD (v : Py) (attr : String) (default : Py) : Py :=
  match pyGetattr v attr with
  | .ok x => x
  | .error _ => default

/-- Python `column.__dict__` as a list of attribute names and values; only
plain objects have one, everything else raises `AttributeError` (as e.g.
`(5).__dict__` does). -/
def objDict (v : Py) : Except Err (List (String × Py)) :=
  match v with
  | .obj attrs => pure attrs
  | _ => throw (.attributeError "__dict__")

/-- `_object_to_column`: adapt an object column. With a mapping, build a
`ColumnAdapter` (whose `__dict__` holds the wrapped object under `obj` plus
the five adapted attributes). Without one, an SQLAlchemy column is adapted
from its reflection data (array types become `_`-prefixed item type names,
and `numeric` types read precision and scale from the digits of
`str(column.type)`); any other object is returned unchanged after the
required-attribute check on its `__dict__`. -/
def _object_to_column (column : Py) (cm : Option ColumnMapping) :
    Except Err (List (String × Py)) :=
  match cm with
  | some m => do
      let n ← pyGetattr column m.name
      let t ← pyGetattr column m.type
      pure (("obj", column) ::
        mkColumnBag n t (pyGetattrD column m.nullable (.bool true))
          (pyGetattrD column m.numeric_scale .none)
          (pyGetattrD column m.numeric_precision .none))
  | Option.none =>
      match column with
      | .sqla name typeRepr visitName itemVisitName nullable =>
          let numDef := findallDigits typeRepr
          let numeric_precision : Py :=
            if strContains (pyLower typeRepr) "numeric" then
              match numDef.head? with
              | some p => .int (p : ℤ)
              | Option.none => .none
            else .none
          let numeric_scale : Py :=
            if strContains (pyLower typeRepr) "numeric" then
              match (numDef.drop 1).head? with
              | some s => .int (s : ℤ)
              | Option.none => .none
            else .none
          let typeName := if visitName = "ARRAY" then "_" ++ itemVisitName else visitName
          pure (("obj", column) ::
            mkColumnBag (.str name) (.str typeName) (.bool nullable)
              numeric_scale numeric_precision)
      | _ => do
          let d ← objDict column
          _check_required_attributes (d.map Prod.fst)
          pure d

/-! ## Avro type computation and schema assembly -/

/-- Python dict assignment `avro_type[k] = v` on a `Py` value. The source only
assigns into dicts it just built; on any other value the assignment would
raise, a case the functions below never reach. -/
def pyDictSet (v : Py) (k : String) (x : Py) : Py :=
  match v with
  | .dict kvs => .dict (dictSet kvs k x)
  | other => other

/-- Python `s.startswith("_")` (over the character list, where Lean's kernel
computes). -/
def startsWithU (s : String) : Bool :=
  match s.data with
  | '_' :: _ => true
  | _ => false

/-- Python `s[1:]` as the source uses it (`column.type = column.type[1:]`). -/
def dropFirst (s : String) : String :=
  String.mk s.data.tail

/-- Attribute read on a normalized-column attribute dictionary, raising
`AttributeError` when the attribute is absent. -/
def bagGet (bag : List (String × Py)) (attr : String) : Except Err Py :=
  match sGet bag attr with
  | some x => pure x
  | Option.none => throw (.attributeError attr)

/-- `_get_avro_type`: map a normalized column to its Avro type value. A
leading `_` marks an array type and is stripped; unknown type names fall back
to `text`; a logical type wraps the primitive name in a dict; array types
wrap further; `decimal` receives `precision` and `scale` (defaulted through
Python `or`); a truthy `nullable` wraps the result in `["null", ...]`. The
`conversionFailed` error is the final `'conversion to AVRO failed'` raise,
reached only when the map lookup fails or yields a falsy value. Reading the
`type` attribute models `column.type.startswith("_")`: a missing attribute
raises `AttributeError("type")`, a `None` or non-string value raises for the
missing `startswith` method. -/
def _get_avro_type (col : List (String × Py)) : Except Err Py := do
  let t0 ← bagGet col "type"
  match t0 with
  | .str ts₀ => do
    let isArr := startsWithU ts₀
    let ts := if isArr then dropFirst ts₀ else ts₀
    let column_type := if (sGet TYPE_MAP ts).isSome then ts else "text"
    match sGet TYPE_MAP column_type with
    | some avroName =>
        if avroName = "" then throw (.conversionFailed column_type) else do
        let logical := sGet LOGICAL_TYPES_MAP column_type
        let base : Py :=
          match logical with
          | some lt => .dict [("type", .str avroName), ("logicalType", .str lt)]
          | Option.none => .str avroName
        let t1 := if isArr then Py.dict [("type", .str "array"), ("items", base)] else base
        let t2 ← if logical = some "decimal" then do
            let p ← bagGet col "numeric_precision"
            let s ← bagGet col "numeric_scale"
            pure (pyDictSet (pyDictSet t1 "precision" (pyOr p (.int 24)))
              "scale" (pyOr s (.int 2)))
          else pure t1
        let nb ← bagGet col "nullable"
        pure (if pyTruthy nb then Py.list [.str "null", t2] else t2)
    | Option.none => throw (.conversionFailed column_type)
  | _ => throw (.attributeError "startswith")

/-- `BUILTIN_TYPES` membership for the column dispatch: `type(column) in
[tuple, list, set, int, float, str, dict]`. -/
def isBuiltinType : Py → Bool
  | .tuple _ => true
  | .list _ => true
  | .set _ => true
  | .int _ => true
  | .float _ => true
  | .str _ => true
  | .dict _ => true
  | _ => false

/-- Python `type(column).__name__` for the builtin column values, used in the
`Unsupported column type` message. -/
def pyTypeName : Py → String
  | .none => "NoneType"
  | .bool _ => "bool"
  | .int _ => "int"
  | .float _ => "float"
  | .str _ => "str"
  | .tuple _ => "tuple"
  | .list _ => "list"
  | .set _ => "set"
  | .dict _ => "dict"
  | .datetime _ => "datetime"
  | .date _ => "date"
  | .timedelta _ _ _ => "timedelta"
  | .dateRange _ _ => "DateRange"
  | .numericRange _ _ => "NumericRange"
  | .obj _ => "object"
  | .sqla _ _ _ _ _ => "Column"

/-- The dispatch at lines 154-161 of the source: dicts normalize through
`_dict_to_column`, the remaining builtins raise `Unsupported column type`,
and every other value (an object in Python) normalizes through
`_object_to_column`. -/
def normalizeColumn (column : Py) (cm : Option ColumnMapping) :
    Except Err (List (String × Py)) :=
  match column with
  | .dict d => _dict_to_column d cm
  | .tuple xs => throw (.unsupportedColumnType (pyTypeName (.tuple xs)))
  | .list xs => throw (.unsupportedColumnType (pyTypeName (.list xs)))
  | .set xs => throw (.unsupportedColumnType (pyTypeName (.set xs)))
  | .int n => throw (.unsupportedColumnType (pyTypeName (.int n)))
  | .float q => throw (.unsupportedColumnType (pyTypeName (.float q)))
  | .str s => throw (.unsupportedColumnType (pyTypeName (.str s)))
  | other => _object_to_column other cm

/-- Lines 163-165: `if not hasattr(column, "nullable"): column.nullable = True`. -/
def ensureNullable (bag : List (String × Py)) : List (String × Py) :=
  if (sGet bag "nullable").isSome then bag else dictSet bag "nullable" (.bool true)

/-- Lines 167-169: `if column.type is not None: column.type = column.type.lower()`.
Reading a missing `type` attribute raises `AttributeError`; calling `.lower()`
on a non-string, non-`None` value raises for the missing method. -/
def lowerType (bag : List (String × Py)) : Except Err (List (String × Py)) := do
  let t ← bagGet bag "type"
  match t with
  | .none => pure bag
  | .str s => pure (dictSet bag "type" (.str (pyLower s)))
  | _ => throw (.attributeError "lower")

/-- Lines 163-173 of `get_avro_schema`: the per-column steps applied after
normalization, producing the field dict `{"name": ..., "type": ...}`. -/
def columnField (bag : List (String × Py)) : Except Err Py := do
  let bag := ensureNullable bag
  let bag ← lowerType bag
  let name ← bagGet bag "name"
  let ty ← _get_avro_type bag
  pure (.dict [("name", name), ("type", ty)])

/-- The `for column in columns` loop of `get_avro_schema`. -/
def schemaFields (columns : List Py) (cm : Option ColumnMapping) :
    Except Err (List Py) :=
  match columns with
  | [] => pure []
  | c :: rest => do
      let bag ← normalizeColumn c cm
      let fld ← columnField bag
      let r ← schemaFields rest cm
      pure (fld :: r)

/-- The Avro record dictionary `get_avro_schema` assembles; `ns` is the
source's `namespace` argument, renamed because `namespace` is a Lean keyword. -/
def mkRecordSchema (table_name ns : String) (fields : List Py) : Py :=
  .dict [("namespace", .str ns), ("name", .str table_name),
         ("type", .str "record"), ("fields", .list fields)]

/-- `get_avro_schema`: generate the Avro record schema for the given columns,
optionally through a `ColumnMapping`. -/
def get_avro_schema (table_name ns : String) (columns : List Py)
    (column_mapping : Option ColumnMapping) : Except Err Py := do
  let fields ← schemaFields columns column_mapping
  pure (mkRecordSchema table_name ns fields)

/-! ## Row coercion -/

/-- Numeric view of a value for Python `==` (Python compares `bool`, `int`
and `float` by value across types). -/
def pyNum? : Py → Option ℚ
  | .bool b => some (if b then 1 else 0)
  | .int n => some (n : ℚ)
  | .float q => some q
  | _ => Option.none

/-- Python `==`, fuel-indexed for containers. Scalars, strings, the
`datetime` family and ranges compare by value; containers compare
element-wise (dicts by key); plain objects and SQLAlchemy columns fall back
to identity, which the model cannot observe and conservatively renders as
`false` (the source only ever compares schema field names, which are
strings). -/
def pyEqF : ℕ → Py → Py → Bool
  | 0, _, _ => false
  | _ + 1, .none, .none => true
  | _ + 1, .str a, .str b => a = b
  | _ + 1, .datetime a, .datetime b => a = b
  | _ + 1, .date a, .date b => a = b
  | _ + 1, .timedelta d₁ s₁ u₁, .timedelta d₂ s₂ u₂ => d₁ = d₂ && s₁ = s₂ && u₁ = u₂
  | fuel + 1, .dateRange l₁ h₁, .dateRange l₂ h₂ =>
      pyEqF fuel (.date l₁) (.date l₂) && pyEqF fuel (.date h₁) (.date h₂)
  | fuel + 1, .numericRange l₁ h₁, .numericRange l₂ h₂ =>
      pyEqF fuel l₁ l₂ && pyEqF fuel h₁ h₂
  | fuel + 1, .tuple xs, .tuple ys =>
      xs.length = ys.length && (xs.zip ys).all (fun p => pyEqF fuel p.1 p.2)
  | fuel + 1, .list xs, .list ys =>
      xs.length = ys.length && (xs.zip ys).all (fun p => pyEqF fuel p.1 p.2)
  | fuel + 1, .set xs, .set ys =>
      xs.length = ys.length && xs.all (fun x => ys.any (fun y => pyEqF fuel x y))
  | fuel + 1, .dict a, .dict b =>
      a.length = b.length && a.all (fun kv =>
        match sGet b kv.1 with
        | some w => pyEqF fuel kv.2 w
        | Option.none => false)
  | _ + 1, a, b =>
      match pyNum? a, pyNum? b with
      | some x, some y => x = y
      | _, _ => false

/-- Python `==` (fuel covering CPython's recursion limit). -/
def pyEqB (a b : Py) : Bool := pyEqF 1000 a b

/-- Python subscript `v[k]` with a string key: dict lookup raising `KeyError`
when absent, `TypeError` on non-dicts. -/
def pySubscript (v : Py) (k : String) : Except Err Py :=
  match v with
  | .dict kvs =>
      match sGet kvs k with
      | some x => pure x
      | Option.none => throw (.keyError k)
  | _ => throw (.typeError "not subscriptable")

/-- Python `row.get(attribute)` on a dict row: the model's dicts are
string-keyed, so any non-string (hashable) key is simply absent and yields
`None`. -/
def dictRowGet (kvs : List (String × Py)) (attr : Py) : Py :=
  match attr with
  | .str s => dGet kvs s .none
  | _ => .none

/-- The index search of `_get_row_attr` for tuple and list rows: the first
index whose field dict's `"name"` equals the attribute, `None` when there is
none. Subscript errors while scanning propagate, as they do out of the Python
generator. -/
def findNameIdx (fields : List Py) (attr : Py) : ℕ → Except Err (Option ℕ)
  | i =>
    match fields with
    | [] => pure Option.none
    | d :: rest => do
        let nm ← pySubscript d "name"
        if pyEqB nm attr then pure (some i)
        else findNameIdx rest attr (i + 1)

/-- `_get_row_attr`: best-effort field lookup on a row. Dict rows use
`row.get` (never raising); tuple and list rows index by the field's position
in the schema (`row[None]` raising `TypeError` when the name is not in the
schema, and an out-of-range index raising `IndexError`); the builtins `set`,
`int`, `float` and `str` raise `Unsupported row type`; every other value is
an object and uses `getattr` (with a `TypeError` for non-string attribute
names). -/
def _get_row_attr (row : Py) (attr : Py) (fields : List Py) : Except Err Py :=
  match row with
  | .dict kvs => pure (dictRowGet kvs attr)
  | .tuple xs => do
      let idx ← findNameIdx fields attr 0
      match idx with
      | some i =>
          match xs.drop i |>.head? with
          | some v => pure v
          | Option.none => throw .indexError
      | Option.none => throw (.typeError "row index is None")
  | .list xs => do
      let idx ← findNameIdx fields attr 0
      match idx with
      | some i =>
          match xs.drop i |>.head? with
          | some v => pure v
          | Option.none => throw .indexError
      | Option.none => throw (.typeError "row index is None")
  | .set _ => throw .unsupportedRowType
  | .int _ => throw .unsupportedRowType
  | .float _ => throw .unsupportedRowType
  | .str _ => throw .unsupportedRowType
  | other =>
      match attr with
      | .str s => pyGetattr other s
      | _ => throw (.typeError "attribute name must be string")

/-- The value-coercion chain of `get_avro_row_dict` (lines 197-218), in the
source's branch order: `None` of a declared `"array"` type becomes `[]`,
dicts are JSON-encoded, datetimes become truncated epoch milliseconds, dates
epoch days, timedeltas their string form, a `DateRange` the list of its
epoch-day bounds, a `NumericRange` the list of its raw bounds, lists drop
their `None` elements, and everything else passes through unchanged.
(A datetime is also a Python `date`, but the datetime branch is checked
first; the model's constructors are disjoint, matching that order.) -/
def coerceValue (v : Py) (column_type : Py) : Except Err Py :=
  match v with
  | .none =>
      if pyEqB column_type (.str "array") then pure (Py.list []) else pure Py.none
  | .dict kvs => do
      let s ← jsonDumps (.dict kvs)
      pure (.str s)
  | .datetime usec => pure (.int (datetimeEpochMillis usec))
  | .date d => pure (.int (dateToEpochDays d))
  | .timedelta days secs usecs => pure (.str (pyTimedeltaStr days secs usecs))
  | .dateRange lo hi =>
      pure (.list [.int (dateToEpochDays lo), .int (dateToEpochDays hi)])
  | .numericRange lo hi => pure (.list [lo, hi])
  | .list xs => pure (.list (xs.filter (fun x => !x.isNone)))
  | other => pure other

/-- The `for schema_row in schema["fields"]` loop of `get_avro_row_dict`:
`todo` is the remaining iteration, `fields` the full field list handed to
`_get_row_attr`, `acc` the `avro_dict` built so far. Schema field names are
strings in every schema this library builds; the model restricts its dict
keys to strings and reports any other name as a `TypeError`. -/
def rowFold (row : Py) (fields : List Py) :
    List Py → List (String × Py) → Except Err (List (String × Py))
  | [], acc => pure acc
  | fld :: rest, acc => do
      let kPy ← pySubscript fld "name"
      let v ← _get_row_attr row kPy fields
      let tp ← pySubscript fld "type"
      let c ← coerceValue v tp
      match kPy with
      | .str k => rowFold row fields rest (dictSet acc k c)
      | _ => throw (.typeError "unhashable key")

/-- `get_avro_row_dict`: build the Avro row dictionary for `row` under
`schema`. -/
def get_avro_row_dict (row schema : Py) : Except Err Py := do
  let fields ← pySubscript schema "fields"
  match fields with
  | .list fs => do
      let kvs ← rowFold row fs fs []
      pure (.dict kvs)
  | .tuple fs => do
      let kvs ← rowFold row fs fs []
      pure (.dict kvs)
  | _ => throw (.typeError "not iterable")

/-! ## Per-field mapping overrides

The repository's test suite (`tests/test_schema_types.py::test_mapping_overrides`)
calls `get_avro_schema(..., mapping_overrides=overrides)` and
`get_avro_row_dict(row, schema, overrides)`, but the copy of
`pg2avro/pg2avro.py` under `src/` predates that parameter, so its
implementation is repository code not available here. The definitions below
model it from the spec. -/

/-- Modelled from the spec: one entry of the `mapping_overrides` argument
missing from `src/pg2avro/pg2avro.py` (only its test callers are in the
tree). Per the spec's "optional per-field override mechanism remapping both
the declared type and the runtime value-coercion function", an override
carries the replacement Postgres type name used during schema generation and
the replacement value-coercion function applied to the field's values at
runtime (the tests pass Python callables such as `str`, `float`, `list`). -/
structure MappingOverride where
  pg_type : String
  python_type : Py → Py

/-- Modelled from the spec: the `mapping_overrides` parameter of
`get_avro_schema`, missing from `src/pg2avro/pg2avro.py`. A column whose
normalized `name` has an override has its declared type replaced by the
override's `pg_type` before the Avro type is computed; other columns are
unaffected. -/
def applyTypeOverride (overrides : List (String × MappingOverride))
    (bag : List (String × Py)) : List (String × Py) :=
  match sGet bag "name" with
  | some (.str n) =>
      match sGet overrides n with
      | some o => dictSet bag "type" (.str o.pg_type)
      | Option.none => bag
  | _ => bag

/-- Modelled from the spec: the column loop of `get_avro_schema` with
`mapping_overrides` applied after normalization. -/
def schemaFieldsOv (columns : List Py) (cm : Option ColumnMapping)
    (overrides : List (String × MappingOverride)) : Except Err (List Py) :=
  match columns with
  | [] => pure []
  | c :: rest => do
      let bag ← normalizeColumn c cm
      let bag := applyTypeOverride overrides bag
      let fld ← columnField bag
      let r ← schemaFieldsOv rest cm overrides
      pure (fld :: r)

/-- Modelled from the spec: `get_avro_schema` with its `mapping_overrides`
parameter, missing from `src/pg2avro/pg2avro.py`. -/
def get_avro_schema_ov (table_name ns : String) (columns : List Py)
    (column_mapping : Option ColumnMapping)
    (overrides : List (String × MappingOverride)) : Except Err Py := do
  let fields ← schemaFieldsOv columns column_mapping overrides
  pure (mkRecordSchema table_name ns fields)

/-- Modelled from the spec: the field loop of `get_avro_row_dict` with
overrides. A non-`None` value of an overridden field is coerced by the
override's `python_type` function instead of the built-in coercion chain;
`None` values pass through unchanged, as the test caller's expected rows
show. -/
def rowFoldOv (row : Py) (fields : List Py)
    (overrides : List (String × MappingOverride)) :
    List Py → List (String × Py) → Except Err (List (String × Py))
  | [], acc => pure acc
  | fld :: rest, acc => do
      let kPy ← pySubscript fld "name"
      let v ← _get_row_attr row kPy fields
      let tp ← pySubscript fld "type"
      match kPy with
      | .str k =>
          match sGet overrides k with
          | some o =>
              if v.isNone then rowFoldOv row fields overrides rest (dictSet acc k .none)
              else rowFoldOv row fields overrides rest (dictSet acc k (o.python_type v))
          | Option.none => do
              let c ← coerceValue v tp
              rowFoldOv row fields overrides rest (dictSet acc k c)
      | _ => throw (.typeError "unhashable key")

/-- Modelled from the spec: `get_avro_row_dict` with its third
`mapping_overrides` parameter, missing from `src/pg2avro/pg2avro.py`. -/
def get_avro_row_dict_ov (row schema : Py)
    (overrides : List (String × MappingOverride)) : Except Err Py := do
  let fields ← pySubscript schema "fields"
  match fields with
  | .list fs => do
      let kvs ← rowFoldOv row fs overrides fs []
      pure (.dict kvs)
  | .tuple fs => do
      let kvs ← rowFoldOv row fs overrides fs []
      pure (.dict kvs)
  | _ => throw (.typeError "not iterable")

/-! ## Statement helpers -/

/-- The array-marker stripping of `_get_avro_type`: the type name with a
leading `_` removed. -/
def stripArr (s : String) : String :=
  if startsWithU s then dropFirst s else s

/-- The nullability wrapping of `_get_avro_type`: a truthy `nullable` turns
the type into the union `["null", t]`. -/
def nullWrap (nb t : Py) : Py :=
  if pyTruthy nb then Py.list [.str "null", t] else t

/-- The array wrapping of `_get_avro_type`: a `_`-marked type becomes
`{"type": "array", "items": t}`. -/
def arrWrap (b : Bool) (t : Py) : Py :=
  if b then Py.dict [("type", .str "array"), ("items", t)] else t

/-- All values of `"logicalType"` keys anywhere inside a value, in
left-to-right order (fuel-indexed over nested dicts and lists). -/
def logicalsInF : ℕ → Py → List String
  | 0, _ => []
  | fuel + 1, .dict kvs =>
      (kvs.map (fun kv =>
        (match kv.1, kv.2 with
         | "logicalType", .str lt => [lt]
         | _, _ => []) ++ logicalsInF fuel kv.2)).flatten
  | fuel + 1, .list xs => (xs.map (logicalsInF fuel)).flatten
  | fuel + 1, .tuple xs => (xs.map (logicalsInF fuel)).flatten
  | _ + 1, _ => []

/-- All `"logicalType"` annotations inside an emitted Avro type value. -/
def logicalsIn (v : Py) : List String := logicalsInF 1000 v

/-- A numeric column attribute as stored on a column record: `None` or an
integer. -/
def numAttr : Option ℤ → Py
  | Option.none => .none
  | some n => .int n

/-- Lookup of `out[k]` on a produced row dictionary. -/
def pyDictGet (v : Py) (k : String) : Option Py :=
  match v with
  | .dict kvs => sGet kvs k
  | _ => Option.none

/-- Whether a schema field dict is named `k` (its `"name"` entry is the
string `k`). -/
def fieldNameIs (k : String) (fld : Py) : Bool :=
  match pySubscript fld "name" with
  | .ok (.str s) => s = k
  | _ => false

/-! ## Shared lemmas -/

theorem bagGet_type (n t nb sc p : Py) :
    bagGet (mkColumnBag n t nb sc p) "type" = pure t := rfl

theorem bagGet_nullable (n t nb sc p : Py) :
    bagGet (mkColumnBag n t nb sc p) "nullable" = pure nb := rfl

theorem bagGet_scale (n t nb sc p : Py) :
    bagGet (mkColumnBag n t nb sc p) "numeric_scale" = pure sc := rfl

theorem bagGet_precision (n t nb sc p : Py) :
    bagGet (mkColumnBag n t nb sc p) "numeric_precision" = pure p := rfl

theorem sGet_mem {α : Type} : ∀ (l : List (String × α)) (k : String) (v : α),
    sGet l k = some v → (k, v) ∈ l := by
  intro l k v
  induction l with
  | nil => simp [sGet]
  | cons kv r ih =>
      obtain ⟨k', w⟩ := kv
      simp only [sGet]
      split
      · rename_i hk
        intro hv
        cases hv
        subst hk
        exact List.mem_cons_self _ _
      · intro hv
        exact List.mem_cons_of_mem _ (ih hv)

theorem TYPE_MAP_value_ne_empty (k v : String) (h : (k, v) ∈ TYPE_MAP) : v ≠ "" := by
  have hall : TYPE_MAP.all (fun q => decide (q.2 ≠ "")) = true := by decide
  have := List.all_eq_true.mp hall _ h
  simpa using this

theorem sGet_TYPE_text : sGet TYPE_MAP "text" = some "string" := rfl

theorem sGet_LOGICAL_text : sGet LOGICAL_TYPES_MAP "text" = Option.none := rfl

/-- Complete characterization of `_get_avro_type` on a normalized column
record whose `type` attribute is the string `s`: a type name absent from
`TYPE_MAP` (after array-marker stripping) falls back to `text`, hence Avro
`string`; a present one is emitted with its logical-type annotation, array
wrapping, decimal precision and scale, and nullability wrapping. -/
theorem gat_char (x s : String) (nb sc p : Py) :
    _get_avro_type (mkColumnBag (.str x) (.str s) nb sc p) =
      (match sGet TYPE_MAP (stripArr s) with
      | Option.none =>
          pure (nullWrap nb (arrWrap (startsWithU s) (.str "string")))
      | some avroName =>
          let logical := sGet LOGICAL_TYPES_MAP (stripArr s)
          let base : Py :=
            match logical with
            | some lt => Py.dict [("type", .str avroName), ("logicalType", .str lt)]
            | Option.none => .str avroName
          let t1 := arrWrap (startsWithU s) base
          let t2 :=
            if logical = some "decimal" then
              pyDictSet (pyDictSet t1 "precision" (pyOr p (.int 24))) "scale" (pyOr sc (.int 2))
            else t1
          pure (nullWrap nb t2)) := by
  by_cases hb : startsWithU s
  · cases hm : sGet TYPE_MAP (dropFirst s) with
    | none =>
        simp [_get_avro_type, bagGet_type, bagGet_nullable, pure_bind, stripArr,
          hb, hm, nullWrap, arrWrap, sGet_TYPE_text, sGet_LOGICAL_text]
    | some v =>
        have hv : v ≠ "" := TYPE_MAP_value_ne_empty _ _ (sGet_mem _ _ _ hm)
        cases hl : sGet LOGICAL_TYPES_MAP (dropFirst s) with
        | none =>
            simp [_get_avro_type, bagGet_type, bagGet_nullable, pure_bind, stripArr,
              hb, hm, hl, hv, nullWrap, arrWrap]
        | some lt =>
            by_cases hd : lt = "decimal" <;>
              simp [_get_avro_type, bagGet_type, bagGet_nullable, bagGet_scale,
                bagGet_precision, pure_bind, stripArr, hb, hm, hl, hv, hd,
                nullWrap, arrWrap]
  · cases hm : sGet TYPE_MAP s with
    | none =>
        simp [_get_avro_type, bagGet_type, bagGet_nullable, pure_bind, stripArr,
          hb, hm, nullWrap, arrWrap, sGet_TYPE_text, sGet_LOGICAL_text]
    | some v =>
        have hv : v ≠ "" := TYPE_MAP_value_ne_empty _ _ (sGet_mem _ _ _ hm)
        cases hl : sGet LOGICAL_TYPES_MAP s with
        | none =>
            simp [_get_avro_type, bagGet_type, bagGet_nullable, pure_bind, stripArr,
              hb, hm, hl, hv, nullWrap, arrWrap]
        | some lt =>
            by_cases hd : lt = "decimal" <;>
              simp [_get_avro_type, bagGet_type, bagGet_nullable, bagGet_scale,
                bagGet_precision, pure_bind, stripArr, hb, hm, hl, hv, hd,
                nullWrap, arrWrap]

/-! ## Claim C9 -/

/-- C9: every column mapping to the decimal logical type (SQL type
`numeric`) is emitted with `precision` and `scale`; a `None` (or `0`)
`numeric_precision` defaults to `24` and a `None` (or `0`) `numeric_scale`
defaults to `2` — in particular a declared scale of `0` is replaced by `2`. -/
theorem numeric_decimal_always_has_precision_scale (n : String) (nb p sc : Py) :
    _get_avro_type (mkColumnBag (.str n) (.str "numeric") nb sc p) =
      pure (nullWrap nb (.dict [("type", .str "bytes"), ("logicalType", .str "decimal"),
        ("precision", pyOr p (.int 24)), ("scale", pyOr sc (.int 2))])) ∧
    ((p = .none ∨ p = .int 0) → pyOr p (.int 24) = .int 24) ∧
    ((sc = .none ∨ sc = .int 0) → pyOr sc (.int 2) = .int 2) := by
  refine ⟨rfl, ?_, ?_⟩ <;> rintro (rfl | rfl) <;> rfl

/-- Witness for C9 at a concrete column: `numeric` with precision `None` and
declared scale `0` is emitted with precision `24` and scale `2`. -/
theorem numeric_decimal_always_has_precision_scale_witness :
    _get_avro_type (mkColumnBag (.str "n") (.str "numeric") (.bool false) (.int 0) .none) =
      pure (.dict [("type", .str "bytes"), ("logicalType", .str "decimal"),
        ("precision", .int 24), ("scale", .int 2)]) := by
  have h := numeric_decimal_always_has_precision_scale "n" (.bool false) .none (.int 0)
  have h24 := h.2.1 (Or.inl rfl)
  have h2 := h.2.2 (Or.inr rfl)
  rw [h.1, h24, h2]
  rfl

/-! ## Claim C8 -/

/-- C8: for every column record whose type is a string, `_get_avro_type`
returns a type without raising; a (stripped) type name absent from
`TYPE_MAP` is substituted with `text` and therefore mapped to Avro
`string`, so the final conversion-failed raise is unreachable. -/
theorem unknown_type_names_fall_back_to_string (x s : String) (nb p sc : Py) :
    (∃ t, _get_avro_type (mkColumnBag (.str x) (.str s) nb sc p) = pure t) ∧
    (sGet TYPE_MAP (stripArr s) = Option.none →
      _get_avro_type (mkColumnBag (.str x) (.str s) nb sc p) =
        pure (nullWrap nb (arrWrap (startsWithU s) (.str "string")))) := by
  constructor
  · cases hm : sGet TYPE_MAP (stripArr s) <;> rw [gat_char] <;> simp [hm]
  · intro h
    rw [gat_char, h]

/-- Witness for C8 at a concrete column: the custom type name `hstore` is
absent from `TYPE_MAP` and is emitted as nullable Avro `string`. -/
theorem unknown_type_names_fall_back_to_string_witness :
    sGet TYPE_MAP (stripArr "hstore") = Option.none ∧
    _get_avro_type (mkColumnBag (.str "c") (.str "hstore") (.bool true) .none .none) =
      pure (.list [.str "null", .str "string"]) := by
  refine ⟨by decide, ?_⟩
  have h := (unknown_type_names_fall_back_to_string "c" "hstore" (.bool true) .none .none).2
    (by decide)
  rw [h]
  rfl

/-! ## Claim C4 -/

theorem TYPE_none_LOGICAL_none (s : String) (hm : sGet TYPE_MAP s = Option.none) :
    sGet LOGICAL_TYPES_MAP s = Option.none := by
  cases hl : sGet LOGICAL_TYPES_MAP s with
  | none => rfl
  | some lt =>
      have hmem := sGet_mem _ _ _ hl
      simp [LOGICAL_TYPES_MAP, LOGICAL_TYPES_AVRO_MAP, flipMap] at hmem
      rcases hmem with ⟨h1, h2⟩ | ⟨h1, h2⟩ | ⟨h1, h2⟩ | ⟨h1, h2⟩ | ⟨h1, h2⟩ | ⟨h1, h2⟩ | ⟨h1, h2⟩ <;>
        subst h1 <;> exact absurd hm (by decide)

theorem notin_LOGICAL_none (s : String)
    (h : s ∉ (["numeric", "date", "time", "timestamp", "timestamptz",
      "timestamp without time zone", "timestamp with time zone"] : List String)) :
    sGet LOGICAL_TYPES_MAP s = Option.none := by
  cases hl : sGet LOGICAL_TYPES_MAP s with
  | none => rfl
  | some lt =>
      have hmem := sGet_mem _ _ _ hl
      simp [LOGICAL_TYPES_MAP, LOGICAL_TYPES_AVRO_MAP, flipMap] at hmem
      rcases hmem with ⟨h1, h2⟩ | ⟨h1, h2⟩ | ⟨h1, h2⟩ | ⟨h1, h2⟩ | ⟨h1, h2⟩ | ⟨h1, h2⟩ | ⟨h1, h2⟩ <;>
        subst h1 <;> exact absurd (by decide) h

theorem logicalsInF_pyOr_numAttr (fuel : ℕ) (pn : Option ℤ) (d : ℤ) :
    logicalsInF fuel (pyOr (numAttr pn) (.int d)) = [] := by
  cases pn with
  | none => cases fuel <;> rfl
  | some n =>
      by_cases h : pyTruthy (numAttr (some n)) <;>
        simp [pyOr, h] <;> cases fuel <;> rfl

/-- The logical-type annotations inside the Avro type emitted for a column
record with type string `s`: exactly the `LOGICAL_TYPES_MAP` entry of the
array-marker-stripped name, when there is one. -/
theorem gat_logicals_char (x s : String) (nb : Py) (pn scn : Option ℤ) (t : Py)
    (h : _get_avro_type (mkColumnBag (.str x) (.str s) nb (numAttr scn) (numAttr pn)) = pure t) :
    logicalsIn t = (match sGet LOGICAL_TYPES_MAP (stripArr s) with
                    | some lt => [lt]
                    | Option.none => []) := by
  rw [gat_char] at h
  cases hm : sGet TYPE_MAP (stripArr s) with
  | none =>
      rw [hm] at h
      simp only [pure, Except.pure, Except.ok.injEq] at h
      subst h
      rw [TYPE_none_LOGICAL_none _ hm]
      by_cases hnb : pyTruthy nb <;> by_cases hbb : startsWithU s <;>
        simp [nullWrap, arrWrap, hnb, hbb, logicalsIn, logicalsInF]
  | some v =>
      rw [hm] at h
      cases hl : sGet LOGICAL_TYPES_MAP (stripArr s) with
      | none =>
          rw [hl] at h
          simp only [pure, Except.pure, Except.ok.injEq] at h
          subst h
          by_cases hnb : pyTruthy nb <;> by_cases hbb : startsWithU s <;>
            simp [nullWrap, arrWrap, hnb, hbb, logicalsIn, logicalsInF]
      | some lt =>
          rw [hl] at h
          by_cases hd : lt = "decimal"
          · subst hd
            simp only [if_pos rfl, pure, Except.pure, Except.ok.injEq] at h
            subst h
            by_cases hnb : pyTruthy nb <;> by_cases hbb : startsWithU s <;>
              simp [nullWrap, arrWrap, hnb, hbb, logicalsIn, logicalsInF, pyDictSet,
                dictSet, logicalsInF_pyOr_numAttr]
          · simp only [Option.some.injEq, hd, ite_false, pure, Except.pure,
              Except.ok.injEq] at h
            subst h
            by_cases hnb : pyTruthy nb <;> by_cases hbb : startsWithU s <;>
              simp [nullWrap, arrWrap, hnb, hbb, logicalsIn, logicalsInF]

/-- C4 (amended): the secondary logical-type table contains exactly
`timestamp-millis`, `date` and `decimal`; `numeric` carries `decimal`,
`date` carries `date`, and the five time/timestamp names carry
`timestamp-millis`; every SQL type name outside those seven maps to no
logical type, and the annotations inside an emitted Avro type are exactly
the table entry of the column's (lowercased) type name after array-marker
stripping — so an array type such as `_timestamp` also produces a
`logicalType` annotation, inside its `items`, which is the one exception to
the claim's final clause. -/
theorem logical_types_secondary_table :
    (LOGICAL_TYPES_AVRO_MAP.map Prod.fst = ["timestamp-millis", "date", "decimal"]) ∧
    sGet LOGICAL_TYPES_MAP "numeric" = some "decimal" ∧
    sGet LOGICAL_TYPES_MAP "date" = some "date" ∧
    (∀ s ∈ (["time", "timestamp", "timestamptz", "timestamp without time zone",
      "timestamp with time zone"] : List String),
      sGet LOGICAL_TYPES_MAP s = some "timestamp-millis") ∧
    (∀ s : String, s ∉ (["numeric", "date", "time", "timestamp", "timestamptz",
      "timestamp without time zone", "timestamp with time zone"] : List String) →
      sGet LOGICAL_TYPES_MAP s = Option.none) ∧
    (∀ (x s : String) (nb : Py) (pn scn : Option ℤ) (t : Py),
      _get_avro_type (mkColumnBag (.str x) (.str s) nb (numAttr scn) (numAttr pn)) = pure t →
      logicalsIn t = (match sGet LOGICAL_TYPES_MAP (stripArr s) with
                      | some lt => [lt]
                      | Option.none => [])) :=
  ⟨rfl, rfl, rfl, by decide, notin_LOGICAL_none, gat_logicals_char⟩

/-- Witness for C4 at concrete inputs: `interval` carries no logical type,
and a nullable `date` column's emitted type carries exactly the `date`
annotation. -/
theorem logical_types_secondary_table_witness :
    sGet LOGICAL_TYPES_MAP "interval" = Option.none ∧
    logicalsIn (.list [.str "null", .dict [("type", .str "int"),
      ("logicalType", .str "date")]]) = ["date"] := by
  constructor
  · exact logical_types_secondary_table.2.2.2.2.1 "interval" (by decide)
  · exact logical_types_secondary_table.2.2.2.2.2 "c" "date" (.bool true)
      Option.none Option.none _ rfl

/-- Counterexample to C4 as stated: the SQL type `_timestamp` is outside the
claim's seven type names, yet its emitted Avro type contains a
`logicalType` annotation (`timestamp-millis`, inside the array's `items`). -/
theorem logical_types_secondary_table_cex :
    ("_timestamp" ∉ (["numeric", "date", "time", "timestamp", "timestamptz",
      "timestamp without time zone", "timestamp with time zone"] : List String)) ∧
    get_avro_schema "t" "n" [.dict [("name", .str "a"), ("type", .str "_timestamp"),
      ("nullable", .bool false)]] Option.none =
      pure (mkRecordSchema "t" "n" [.dict [("name", .str "a"),
        ("type", .dict [("type", .str "array"),
                        ("items", .dict [("type", .str "long"),
                                         ("logicalType", .str "timestamp-millis")])])]]) ∧
    logicalsIn (.dict [("type", .str "array"),
                       ("items", .dict [("type", .str "long"),
                                        ("logicalType", .str "timestamp-millis")])]) =
      ["timestamp-millis"] :=
  ⟨by decide, rfl, rfl⟩

/-! ## Claim C5 -/

theorem except_error_bind {α β : Type} (e : Err) (f : α → Except Err β) :
    (Except.error e >>= f) = Except.error e := rfl

theorem except_ok_bind {α β : Type} (a : α) (f : α → Except Err β) :
    (Except.ok a >>= f : Except Err β) = f a := rfl

theorem throw_eq {α : Type} (e : Err) : (throw e : Except Err α) = Except.error e := rfl

theorem pure_eq {α : Type} (a : α) : (pure a : Except Err α) = Except.ok a := rfl

/-- The column loop of `get_avro_schema`, unfolded one step: the head column
is normalized, turned into a field, and consed onto the rest. -/
theorem get_avro_schema_cons (tn ns : String) (c : Py) (rest : List Py)
    (cm : Option ColumnMapping) :
    get_avro_schema tn ns (c :: rest) cm =
      (do
        let bag ← normalizeColumn c cm
        let fld ← columnField bag
        let r ← schemaFields rest cm
        pure (mkRecordSchema tn ns (fld :: r))) := by
  cases hn : normalizeColumn c cm with
  | error e => simp [get_avro_schema, schemaFields, hn, Except.bind]
  | ok bag =>
      cases hcf : columnField bag with
      | error e => simp [get_avro_schema, schemaFields, hn, hcf, Except.bind]
      | ok fld =>
          cases hr : schemaFields rest cm with
          | error e => simp [get_avro_schema, schemaFields, hn, hcf, hr, Except.bind]
          | ok r => simp [get_avro_schema, schemaFields, hn, hcf, hr, Except.bind]

/-- C5: column normalization accepts exactly three input shapes — dict
columns are normalized by `_dict_to_column`, object columns (SQLAlchemy
columns and any other non-builtin value) by `_object_to_column` honouring
the optional `ColumnMapping`, and the remaining builtins (tuple, list, set,
int, float, str) make `get_avro_schema` raise `Unsupported column type` —
and a dict column normalizes to the canonical five-attribute column record. -/
theorem column_input_dispatch :
    (∀ (tn ns : String) (d : List (String × Py)) (rest : List Py)
      (cm : Option ColumnMapping),
      get_avro_schema tn ns (Py.dict d :: rest) cm =
        (do
          let bag ← _dict_to_column d cm
          let fld ← columnField bag
          let r ← schemaFields rest cm
          pure (mkRecordSchema tn ns (fld :: r)))) ∧
    (∀ (tn ns : String) (attrs : List (String × Py)) (rest : List Py)
      (cm : Option ColumnMapping),
      get_avro_schema tn ns (Py.obj attrs :: rest) cm =
        (do
          let bag ← _object_to_column (.obj attrs) cm
          let fld ← columnField bag
          let r ← schemaFields rest cm
          pure (mkRecordSchema tn ns (fld :: r)))) ∧
    (∀ (tn ns nm tr vn ivn : String) (nb : Bool) (rest : List Py)
      (cm : Option ColumnMapping),
      get_avro_schema tn ns (Py.sqla nm tr vn ivn nb :: rest) cm =
        (do
          let bag ← _object_to_column (.sqla nm tr vn ivn nb) cm
          let fld ← columnField bag
          let r ← schemaFields rest cm
          pure (mkRecordSchema tn ns (fld :: r)))) ∧
    (∀ (tn ns : String) (cm : Option ColumnMapping) (rest : List Py) (xs : List Py)
      (n : ℤ) (q : ℚ) (s : String),
      get_avro_schema tn ns (Py.tuple xs :: rest) cm =
        .error (.unsupportedColumnType "tuple") ∧
      get_avro_schema tn ns (Py.list xs :: rest) cm =
        .error (.unsupportedColumnType "list") ∧
      get_avro_schema tn ns (Py.set xs :: rest) cm =
        .error (.unsupportedColumnType "set") ∧
      get_avro_schema tn ns (Py.int n :: rest) cm =
        .error (.unsupportedColumnType "int") ∧
      get_avro_schema tn ns (Py.float q :: rest) cm =
        .error (.unsupportedColumnType "float") ∧
      get_avro_schema tn ns (Py.str s :: rest) cm =
        .error (.unsupportedColumnType "str")) ∧
    (∀ (d : List (String × Py)) (cm : Option ColumnMapping) (bag : List (String × Py)),
      _dict_to_column d cm = pure bag →
      bag.map Prod.fst = ["name", "type", "nullable", "numeric_scale", "numeric_precision"]) := by
  refine ⟨?_, ?_, ?_, ?_, ?_⟩
  · intro tn ns d rest cm
    exact get_avro_schema_cons tn ns (.dict d) rest cm
  · intro tn ns attrs rest cm
    exact get_avro_schema_cons tn ns (.obj attrs) rest cm
  · intro tn ns nm tr vn ivn nb rest cm
    exact get_avro_schema_cons tn ns (.sqla nm tr vn ivn nb) rest cm
  · intro tn ns cm rest xs n q s
    refine ⟨?_, ?_, ?_, ?_, ?_, ?_⟩ <;>
      simp [get_avro_schema, schemaFields, normalizeColumn, pyTypeName, throw_eq,
        except_error_bind]
  · intro d cm bag h
    cases cm with
    | some m =>
        simp [_dict_to_column, pure, Except.pure, mkColumnBag] at h
        subst h
        rfl
    | none =>
        simp [_dict_to_column, _check_required_attributes] at h
        split at h
        · simp [pure, Except.pure, mkColumnBag] at h
          subst h
          rfl
        · simp [pure, Except.pure, throw, throwThe, MonadExceptOf.throw] at h

/-- Witness for C5 at concrete inputs: a dict column builds a schema through
`_dict_to_column`, and an `int` column raises `Unsupported column type`. -/
theorem column_input_dispatch_witness :
    get_avro_schema "t" "n" [.dict [("name", .str "a"), ("type", .str "int4"),
      ("nullable", .bool false)]] Option.none =
      pure (mkRecordSchema "t" "n" [.dict [("name", .str "a"), ("type", .str "int")]]) ∧
    get_avro_schema "t" "n" [.int 5] Option.none =
      .error (.unsupportedColumnType "int") ∧
    List.map Prod.fst (mkColumnBag (.str "a") (.str "int4") (.bool true) .none .none) =
      ["name", "type", "nullable", "numeric_scale", "numeric_precision"] := by
  refine ⟨?_, ?_, ?_⟩
  · exact (column_input_dispatch.1 "t" "n"
      [("name", .str "a"), ("type", .str "int4"), ("nullable", .bool false)] []
      Option.none).trans (by rfl)
  · exact (column_input_dispatch.2.2.2.1 "t" "n" Option.none [] [] 5 0 "").2.2.2.1
  · exact column_input_dispatch.2.2.2.2
      [("name", .str "a"), ("type", .str "int4")] Option.none
      (mkColumnBag (.str "a") (.str "int4") (.bool true) .none .none) rfl

/-! ## Claim C6 -/

/-- C6: malformed column input makes schema generation raise rather than
recover — a dict column without a mapping whose keys miss `name` or `type`,
and a plain (non-ORM) object column without a mapping whose attributes miss
`name` or `type`, both make `get_avro_schema` raise the exception whose
message lists the provided and the required attributes. -/
theorem malformed_columns_raise :
    (∀ (attrs : List String), hasRequiredAttributes attrs = true ↔
      ("name" ∈ attrs ∧ "type" ∈ attrs)) ∧
    (∀ (tn ns : String) (d : List (String × Py)) (rest : List Py),
      hasRequiredAttributes (d.map Prod.fst) = false →
      get_avro_schema tn ns (Py.dict d :: rest) Option.none =
        .error (.missingRequiredAttributes (d.map Prod.fst) REQUIRED_COLUMN_ATTRIBUTES)) ∧
    (∀ (tn ns : String) (attrs : List (String × Py)) (rest : List Py),
      hasRequiredAttributes (attrs.map Prod.fst) = false →
      get_avro_schema tn ns (Py.obj attrs :: rest) Option.none =
        .error (.missingRequiredAttributes (attrs.map Prod.fst) REQUIRED_COLUMN_ATTRIBUTES)) := by
  refine ⟨?_, ?_, ?_⟩
  · intro attrs
    simp [hasRequiredAttributes, REQUIRED_COLUMN_ATTRIBUTES]
  · intro tn ns d rest h
    rw [get_avro_schema_cons]
    simp [normalizeColumn, _dict_to_column, _check_required_attributes, h, throw_eq,
      except_error_bind]
  · intro tn ns attrs rest h
    rw [get_avro_schema_cons]
    simp [normalizeColumn, _object_to_column, objDict, _check_required_attributes, h,
      throw_eq, except_error_bind, except_ok_bind]

/-- Witness for C6 at concrete inputs: a dict column and an object column
whose keys are `incompatible` and `type` raise the required-attributes
exception. -/
theorem malformed_columns_raise_witness :
    get_avro_schema "t" "n" [.dict [("incompatible", .str "x"), ("type", .str "int4")]]
      Option.none =
      .error (.missingRequiredAttributes ["incompatible", "type"] ["name", "type"]) ∧
    get_avro_schema "t" "n" [.obj [("incompatible", .str "x"), ("type", .str "int4")]]
      Option.none =
      .error (.missingRequiredAttributes ["incompatible", "type"] ["name", "type"]) := by
  constructor
  · exact (malformed_columns_raise.2.1 "t" "n"
      [("incompatible", .str "x"), ("type", .str "int4")] [] rfl).trans (by rfl)
  · exact (malformed_columns_raise.2.2 "t" "n"
      [("incompatible", .str "x"), ("type", .str "int4")] [] rfl).trans (by rfl)

/-! ## Row-coercion lemmas shared by the row claims -/

theorem sGet_dictSet_self {α : Type} : ∀ (acc : List (String × α)) (k : String) (v : α),
    sGet (dictSet acc k v) k = some v := by
  intro acc k v
  induction acc with
  | nil => simp [dictSet, sGet]
  | cons kv r ih =>
      obtain ⟨k', w⟩ := kv
      by_cases hk : k = k' <;> simp [dictSet, sGet, hk, ih]

theorem sGet_dictSet_other {α : Type} : ∀ (acc : List (String × α)) (k k' : String) (v : α),
    k ≠ k' → sGet (dictSet acc k' v) k = sGet acc k := by
  intro acc k k' v hne
  induction acc with
  | nil => simp [dictSet, sGet, hne]
  | cons kv r ih =>
      obtain ⟨k'', w⟩ := kv
      by_cases hk : k' = k'' <;> by_cases hk2 : k = k'' <;>
        simp_all [dictSet, sGet]

/-- A successful fold leaves the entry of a name occurring in none of the
remaining fields untouched. -/
theorem rowFold_skip (row : Py) (fs : List Py) (k : String) :
    ∀ (todo : List Py) (acc res : List (String × Py)),
    rowFold row fs todo acc = .ok res →
    List.countP (fieldNameIs k) todo = 0 →
    sGet res k = sGet acc k := by
  intro todo
  induction todo with
  | nil =>
      intro acc res h _
      simp [rowFold, pure, Except.pure] at h
      subst h
      rfl
  | cons fld rest ih =>
      intro acc res h hcnt
      rw [List.countP_cons] at hcnt
      cases hname : pySubscript fld "name" with
      | error e => rw [rowFold, hname, except_error_bind] at h; exact absurd h (by simp)
      | ok kPy =>
          cases hv : _get_row_attr row kPy fs with
          | error e =>
              rw [rowFold, hname, except_ok_bind, hv, except_error_bind] at h
              exact absurd h (by simp)
          | ok v =>
              cases htp : pySubscript fld "type" with
              | error e =>
                  rw [rowFold, hname, except_ok_bind, hv, except_ok_bind, htp,
                    except_error_bind] at h
                  exact absurd h (by simp)
              | ok tp =>
                  cases hc : coerceValue v tp with
                  | error e =>
                      rw [rowFold, hname, except_ok_bind, hv, except_ok_bind, htp,
                        except_ok_bind, hc, except_error_bind] at h
                      exact absurd h (by simp)
                  | ok c =>
                      rw [rowFold, hname, except_ok_bind, hv, except_ok_bind, htp,
                        except_ok_bind, hc, except_ok_bind] at h
                      cases kPy with
                      | str k' =>
                          have hfni : fieldNameIs k fld = (k' = k : Bool) := by
                            simp [fieldNameIs, hname]
                          by_cases hkk : k' = k
                          · subst hkk
                            simp [hfni] at hcnt
                          · have : List.countP (fieldNameIs k) rest = 0 := by omega
                            rw [ih _ _ h this]
                            exact sGet_dictSet_other _ _ _ _ (Ne.symm hkk)
                      | _ => exact absurd h (by simp [throw, throwThe, MonadExceptOf.throw])

/-- A successful fold emits, for the unique field named `k`, exactly the
coercion of that field's looked-up value. -/
theorem rowFold_find (row : Py) (fs : List Py) (k : String) (fld : Py)
    (hname : pySubscript fld "name" = .ok (.str k)) :
    ∀ (todo : List Py) (acc res : List (String × Py)),
    rowFold row fs todo acc = .ok res →
    fld ∈ todo →
    List.countP (fieldNameIs k) todo = 1 →
    ∃ v tp c, _get_row_attr row (.str k) fs = .ok v ∧
      pySubscript fld "type" = .ok tp ∧
      coerceValue v tp = .ok c ∧
      sGet res k = some c := by
  intro todo
  induction todo with
  | nil => intro acc res _ hmem; simp at hmem
  | cons fld' rest ih =>
      intro acc res h hmem hcnt
      rw [List.countP_cons] at hcnt
      cases hname' : pySubscript fld' "name" with
      | error e => rw [rowFold, hname', except_error_bind] at h; exact absurd h (by simp)
      | ok kPy =>
          cases hv : _get_row_attr row kPy fs with
          | error e =>
              rw [rowFold, hname', except_ok_bind, hv, except_error_bind] at h
              exact absurd h (by simp)
          | ok v =>
              cases htp : pySubscript fld' "type" with
              | error e =>
                  rw [rowFold, hname', except_ok_bind, hv, except_ok_bind, htp,
                    except_error_bind] at h
                  exact absurd h (by simp)
              | ok tp =>
                  cases hc : coerceValue v tp with
                  | error e =>
                      rw [rowFold, hname', except_ok_bind, hv, except_ok_bind, htp,
                        except_ok_bind, hc, except_error_bind] at h
                      exact absurd h (by simp)
                  | ok c =>
                      rw [rowFold, hname', except_ok_bind, hv, except_ok_bind, htp,
                        except_ok_bind, hc, except_ok_bind] at h
                      cases kPy with
                      | str k' =>
                          rcases List.mem_cons.mp hmem with rfl | hmem'
                          · have hk : k' = k := by
                              rw [hname] at hname'
                              exact (Py.str.inj (Except.ok.inj hname')).symm
                            subst hk
                            have hfni : fieldNameIs k' fld = true := by
                              simp [fieldNameIs, hname]
                            rw [hfni] at hcnt
                            simp only [if_true, ite_true] at hcnt
                            have hrest : List.countP (fieldNameIs k') rest = 0 := by omega
                            refine ⟨v, tp, c, hv, htp, hc, ?_⟩
                            rw [rowFold_skip row fs k' rest _ res h hrest]
                            exact sGet_dictSet_self _ _ _
                          · have hfni : fieldNameIs k fld' = (k' = k : Bool) := by
                              simp [fieldNameIs, hname']
                            by_cases hkk : k' = k
                            · subst hkk
                              simp [fieldNameIs, hname'] at hcnt
                              have hcontra := hcnt fld hmem'
                              rw [hname] at hcontra
                              simp at hcontra
                            · have : List.countP (fieldNameIs k) rest = 1 := by
                                rw [hfni] at hcnt
                                simp [hkk] at hcnt
                                omega
                              exact ih _ _ h hmem' this
                      | _ => exact absurd h (by simp [throw, throwThe, MonadExceptOf.throw])

/-- Inversion of a successful `get_avro_row_dict` call: the output is the
dictionary built by the field fold. -/
theorem row_dict_inv (row sch : Py) (fs : List Py) (out : Py)
    (hf : pySubscript sch "fields" = .ok (.list fs))
    (hout : get_avro_row_dict row sch = .ok out) :
    ∃ kvs, rowFold row fs fs [] = .ok kvs ∧ out = .dict kvs := by
  rw [get_avro_row_dict, hf, except_ok_bind] at hout
  have hout' : (do
      let kvs ← rowFold row fs fs []
      pure (Py.dict kvs) : Except Err Py) = .ok out := hout
  cases hr : rowFold row fs fs [] with
  | error e =>
      rw [hr, except_error_bind] at hout'
      exact absurd hout' (by simp)
  | ok kvs =>
      rw [hr, except_ok_bind] at hout'
      simp only [pure_eq, Except.ok.injEq] at hout'
      exact ⟨kvs, rfl, hout'.symm⟩

/-! ## Claim C2 -/

/-- C2: in every successful `get_avro_row_dict` call, a field value that is a
datetime is emitted as the truncated integer `v.timestamp() * 1000` (epoch
milliseconds), and a field value that is a date — the model's `date`
constructor covers exactly Python dates that are not datetimes, since the
datetime branch is checked first — is emitted as the integer number of days
between it and 1970-01-01. -/
theorem row_datetime_and_date_epoch_coercion
    (row sch : Py) (fs : List Py) (out : Py) (fld : Py) (k : String)
    (hf : pySubscript sch "fields" = .ok (.list fs))
    (hout : get_avro_row_dict row sch = .ok out)
    (hmem : fld ∈ fs)
    (hname : pySubscript fld "name" = .ok (.str k))
    (huniq : List.countP (fieldNameIs k) fs = 1) :
    (∀ usec : ℤ, _get_row_attr row (.str k) fs = .ok (.datetime usec) →
      pyDictGet out k = some (.int (datetimeEpochMillis usec))) ∧
    (∀ d : PyDate, _get_row_attr row (.str k) fs = .ok (.date d) →
      pyDictGet out k = some (.int (dateToEpochDays d))) := by
  obtain ⟨kvs, hfold, rfl⟩ := row_dict_inv row sch fs out hf hout
  obtain ⟨v, tp, c, hv, htp, hc, hres⟩ :=
    rowFold_find row fs k fld hname fs [] kvs hfold hmem huniq
  constructor
  · intro usec hts
    rw [hts] at hv
    cases hv
    rw [show coerceValue (.datetime usec) tp =
      pure (.int (datetimeEpochMillis usec)) from rfl] at hc
    cases hc
    simpa [pyDictGet] using hres
  · intro d hd
    rw [hd] at hv
    cases hv
    rw [show coerceValue (.date d) tp = pure (.int (dateToEpochDays d)) from rfl] at hc
    cases hc
    simpa [pyDictGet] using hres

/-- Witness for C2 at a concrete row: the timestamp `1.5 s` becomes `1500` ms
and January 11th 1970 becomes `10` epoch days. -/
theorem row_datetime_and_date_epoch_coercion_witness :
    pyDictGet (.dict [("t", .int 1500), ("d", .int 10)]) "t" = some (.int 1500) ∧
    pyDictGet (.dict [("t", .int 1500), ("d", .int 10)]) "d" = some (.int 10) := by
  have h := row_datetime_and_date_epoch_coercion
    (.dict [("t", .datetime 1500500), ("d", .date ⟨1970, 1, 11⟩)])
    (.dict [("fields", .list
      [.dict [("name", .str "t"), ("type", .str "long")],
       .dict [("name", .str "d"), ("type", .str "int")]])])
    [.dict [("name", .str "t"), ("type", .str "long")],
     .dict [("name", .str "d"), ("type", .str "int")]]
    (.dict [("t", .int 1500), ("d", .int 10)])
    (.dict [("name", .str "t"), ("type", .str "long")]) "t"
    rfl rfl (by simp) rfl (by rfl)
  have h2 := row_datetime_and_date_epoch_coercion
    (.dict [("t", .datetime 1500500), ("d", .date ⟨1970, 1, 11⟩)])
    (.dict [("fields", .list
      [.dict [("name", .str "t"), ("type", .str "long")],
       .dict [("name", .str "d"), ("type", .str "int")]])])
    [.dict [("name", .str "t"), ("type", .str "long")],
     .dict [("name", .str "d"), ("type", .str "int")]]
    (.dict [("t", .int 1500), ("d", .int 10)])
    (.dict [("name", .str "d"), ("type", .str "int")]) "d"
    rfl rfl (by simp) rfl (by rfl)
  exact ⟨h.1 1500500 rfl, h2.2 ⟨1970, 1, 11⟩ rfl⟩

/-! ## Claim C3 -/

/-- C3: in every successful `get_avro_row_dict` call, a field value that is a
dict is emitted as its `json.dumps` string, a `DateRange` as the two-element
list of its epoch-day bounds, and a `NumericRange` as the two-element list of
its raw bounds. -/
theorem row_json_and_range_coercion
    (row sch : Py) (fs : List Py) (out : Py) (fld : Py) (k : String)
    (hf : pySubscript sch "fields" = .ok (.list fs))
    (hout : get_avro_row_dict row sch = .ok out)
    (hmem : fld ∈ fs)
    (hname : pySubscript fld "name" = .ok (.str k))
    (huniq : List.countP (fieldNameIs k) fs = 1) :
    (∀ kvs' : List (String × Py), _get_row_attr row (.str k) fs = .ok (.dict kvs') →
      ∃ s, jsonDumps (.dict kvs') = .ok s ∧ pyDictGet out k = some (.str s)) ∧
    (∀ lo hi : PyDate, _get_row_attr row (.str k) fs = .ok (.dateRange lo hi) →
      pyDictGet out k =
        some (.list [.int (dateToEpochDays lo), .int (dateToEpochDays hi)])) ∧
    (∀ lo hi : Py, _get_row_attr row (.str k) fs = .ok (.numericRange lo hi) →
      pyDictGet out k = some (.list [lo, hi])) := by
  obtain ⟨kvs, hfold, rfl⟩ := row_dict_inv row sch fs out hf hout
  obtain ⟨v, tp, c, hv, htp, hc, hres⟩ :=
    rowFold_find row fs k fld hname fs [] kvs hfold hmem huniq
  refine ⟨?_, ?_, ?_⟩
  · intro kvs' hd
    rw [hd] at hv
    cases hv
    have hc' : (do
        let s ← jsonDumps (.dict kvs')
        pure (Py.str s) : Except Err Py) = .ok c := hc
    cases hj : jsonDumps (.dict kvs') with
    | error e =>
        rw [hj, except_error_bind] at hc'
        exact absurd hc' (by simp)
    | ok s =>
        rw [hj, except_ok_bind] at hc'
        simp only [pure_eq, Except.ok.injEq] at hc'
        subst hc'
        exact ⟨s, rfl, by simpa [pyDictGet] using hres⟩
  · intro lo hi hd
    rw [hd] at hv
    cases hv
    rw [show coerceValue (.dateRange lo hi) tp =
      pure (.list [.int (dateToEpochDays lo), .int (dateToEpochDays hi)]) from rfl] at hc
    cases hc
    simpa [pyDictGet] using hres
  · intro lo hi hd
    rw [hd] at hv
    cases hv
    rw [show coerceValue (.numericRange lo hi) tp =
      pure (.list [lo, hi]) from rfl] at hc
    cases hc
    simpa [pyDictGet] using hres

/-- Witness for C3 at a concrete row: `{"a": 1}` becomes its JSON string, the
date range Jan 2 - Jan 4 1970 becomes `[1, 3]`, and an integer numeric range
keeps its raw bounds. -/
theorem row_json_and_range_coercion_witness :
    pyDictGet (.dict [("j", .str "\x7b\"a\": 1\x7d"), ("r", .list [.int 1, .int 3]),
        ("q", .list [.int 1, .int 7])]) "j" = some (.str "\x7b\"a\": 1\x7d") ∧
    pyDictGet (.dict [("j", .str "\x7b\"a\": 1\x7d"), ("r", .list [.int 1, .int 3]),
        ("q", .list [.int 1, .int 7])]) "r" = some (.list [.int 1, .int 3]) ∧
    pyDictGet (.dict [("j", .str "\x7b\"a\": 1\x7d"), ("r", .list [.int 1, .int 3]),
        ("q", .list [.int 1, .int 7])]) "q" = some (.list [.int 1, .int 7]) := by
  have hj' := row_json_and_range_coercion
    (.dict [("j", .dict [("a", .int 1)]), ("r", .dateRange ⟨1970, 1, 2⟩ ⟨1970, 1, 4⟩),
            ("q", .numericRange (.int 1) (.int 7))])
    (.dict [("fields", .list [
      .dict [("name", .str "j"), ("type", .str "string")],
      .dict [("name", .str "r"), ("type", .str "array")],
      .dict [("name", .str "q"), ("type", .str "array")]])])
    [.dict [("name", .str "j"), ("type", .str "string")],
     .dict [("name", .str "r"), ("type", .str "array")],
     .dict [("name", .str "q"), ("type", .str "array")]]
    (.dict [("j", .str "\x7b\"a\": 1\x7d"), ("r", .list [.int 1, .int 3]),
            ("q", .list [.int 1, .int 7])])
    (.dict [("name", .str "j"), ("type", .str "string")]) "j"
    rfl rfl (by simp) rfl (by rfl)
  have hr' := row_json_and_range_coercion
    (.dict [("j", .dict [("a", .int 1)]), ("r", .dateRange ⟨1970, 1, 2⟩ ⟨1970, 1, 4⟩),
            ("q", .numericRange (.int 1) (.int 7))])
    (.dict [("fields", .list [
      .dict [("name", .str "j"), ("type", .str "string")],
      .dict [("name", .str "r"), ("type", .str "array")],
      .dict [("name", .str "q"), ("type", .str "array")]])])
    [.dict [("name", .str "j"), ("type", .str "string")],
     .dict [("name", .str "r"), ("type", .str "array")],
     .dict [("name", .str "q"), ("type", .str "array")]]
    (.dict [("j", .str "\x7b\"a\": 1\x7d"), ("r", .list [.int 1, .int 3]),
            ("q", .list [.int 1, .int 7])])
    (.dict [("name", .str "r"), ("type", .str "array")]) "r"
    rfl rfl (by simp) rfl (by rfl)
  have hq' := row_json_and_range_coercion
    (.dict [("j", .dict [("a", .int 1)]), ("r", .dateRange ⟨1970, 1, 2⟩ ⟨1970, 1, 4⟩),
            ("q", .numericRange (.int 1) (.int 7))])
    (.dict [("fields", .list [
      .dict [("name", .str "j"), ("type", .str "string")],
      .dict [("name", .str "r"), ("type", .str "array")],
      .dict [("name", .str "q"), ("type", .str "array")]])])
    [.dict [("name", .str "j"), ("type", .str "string")],
     .dict [("name", .str "r"), ("type", .str "array")],
     .dict [("name", .str "q"), ("type", .str "array")]]
    (.dict [("j", .str "\x7b\"a\": 1\x7d"), ("r", .list [.int 1, .int 3]),
            ("q", .list [.int 1, .int 7])])
    (.dict [("name", .str "q"), ("type", .str "array")]) "q"
    rfl rfl (by simp) rfl (by rfl)
  refine ⟨?_, ?_, ?_⟩
  · obtain ⟨s, hj, he⟩ := hj'.1 [("a", .int 1)] rfl
    have hs : s = "\x7b\"a\": 1\x7d" := by
      rw [show jsonDumps (.dict [("a", .int 1)]) = .ok "\x7b\"a\": 1\x7d" from rfl] at hj
      exact (Except.ok.inj hj).symm
    rw [hs] at he
    exact he
  · exact hr'.2.1 ⟨1970, 1, 2⟩ ⟨1970, 1, 4⟩ rfl
  · exact hq'.2.2 (.int 1) (.int 7) rfl

/-! ## Claim C10 -/

/-- C10: in every successful `get_avro_row_dict` call, a field value that is
a Python list is emitted with its `None` elements removed, and a field of
declared type exactly the string `"array"` whose value is `None` is emitted
as the empty list. -/
theorem row_array_output_never_null
    (row sch : Py) (fs : List Py) (out : Py) (fld : Py) (k : String)
    (hf : pySubscript sch "fields" = .ok (.list fs))
    (hout : get_avro_row_dict row sch = .ok out)
    (hmem : fld ∈ fs)
    (hname : pySubscript fld "name" = .ok (.str k))
    (huniq : List.countP (fieldNameIs k) fs = 1) :
    (∀ xs : List Py, _get_row_attr row (.str k) fs = .ok (.list xs) →
      pyDictGet out k = some (.list (xs.filter (fun x => !x.isNone)))) ∧
    (_get_row_attr row (.str k) fs = .ok .none →
      pySubscript fld "type" = .ok (.str "array") →
      pyDictGet out k = some (.list [])) := by
  obtain ⟨kvs, hfold, rfl⟩ := row_dict_inv row sch fs out hf hout
  obtain ⟨v, tp, c, hv, htp, hc, hres⟩ :=
    rowFold_find row fs k fld hname fs [] kvs hfold hmem huniq
  constructor
  · intro xs hd
    rw [hd] at hv
    cases hv
    rw [show coerceValue (.list xs) tp =
      pure (.list (xs.filter (fun x => !x.isNone))) from rfl] at hc
    cases hc
    simpa [pyDictGet] using hres
  · intro hd htp2
    rw [hd] at hv
    cases hv
    rw [htp] at htp2
    cases Except.ok.inj htp2
    rw [show coerceValue Py.none (Py.str "array") = pure (Py.list []) from rfl] at hc
    cases hc
    simpa [pyDictGet] using hres

/-- Witness for C10 at a concrete row: `[1, None, "x"]` is emitted as
`[1, "x"]`, and a `None` value of an `"array"`-typed field as `[]`. -/
theorem row_array_output_never_null_witness :
    pyDictGet (.dict [("l", .list [.int 1, .str "x"]), ("e", .list [])]) "l" =
      some (.list [.int 1, .str "x"]) ∧
    pyDictGet (.dict [("l", .list [.int 1, .str "x"]), ("e", .list [])]) "e" =
      some (.list []) := by
  have h := row_array_output_never_null
    (.dict [("l", .list [.int 1, .none, .str "x"]), ("e", .none)])
    (.dict [("fields", .list [
      .dict [("name", .str "l"), ("type", .str "array")],
      .dict [("name", .str "e"), ("type", .str "array")]])])
    [.dict [("name", .str "l"), ("type", .str "array")],
     .dict [("name", .str "e"), ("type", .str "array")]]
    (.dict [("l", .list [.int 1, .str "x"]), ("e", .list [])])
    (.dict [("name", .str "l"), ("type", .str "array")]) "l"
    rfl rfl (by simp) rfl (by rfl)
  have h2 := row_array_output_never_null
    (.dict [("l", .list [.int 1, .none, .str "x"]), ("e", .none)])
    (.dict [("fields", .list [
      .dict [("name", .str "l"), ("type", .str "array")],
      .dict [("name", .str "e"), ("type", .str "array")]])])
    [.dict [("name", .str "l"), ("type", .str "array")],
     .dict [("name", .str "e"), ("type", .str "array")]]
    (.dict [("l", .list [.int 1, .str "x"]), ("e", .list [])])
    (.dict [("name", .str "e"), ("type", .str "array")]) "e"
    rfl rfl (by simp) rfl (by rfl)
  exact ⟨h.1 [.int 1, .none, .str "x"] rfl, h2.2 rfl rfl⟩

/-! ## Claim C7 -/

/-- C7 (amended): field lookup on dict rows is best-effort and never raises,
and a dict row missing a schema field name emits that field as `None` —
except when the field's declared type is exactly the string `"array"`, in
which case the empty list is emitted (the behavior claim C10 describes). -/
theorem missing_dict_key_best_effort :
    (∀ (kvs : List (String × Py)) (a : Py) (fs : List Py),
      ∃ v, _get_row_attr (.dict kvs) a fs = .ok v) ∧
    (∀ (kvs : List (String × Py)) (k : String) (tp : Py),
      sGet kvs k = Option.none →
      get_avro_row_dict (.dict kvs)
        (.dict [("fields", .list [.dict [("name", .str k), ("type", tp)]])]) =
        .ok (.dict [(k, if pyEqB tp (.str "array") then .list [] else .none)])) := by
  constructor
  · intro kvs a fs
    exact ⟨dictRowGet kvs a, rfl⟩
  · intro kvs k tp h
    have hv : _get_row_attr (.dict kvs) (.str k) [.dict [("name", .str k), ("type", tp)]] =
        .ok Py.none := by
      simp [_get_row_attr, dictRowGet, dGet, h, pure_eq]
    rw [get_avro_row_dict]
    rw [show pySubscript (.dict [("fields",
      .list [.dict [("name", .str k), ("type", tp)]])]) "fields" =
      .ok (.list [.dict [("name", .str k), ("type", tp)]]) from rfl, except_ok_bind]
    show (do
      let kvs' ← rowFold (.dict kvs) [.dict [("name", .str k), ("type", tp)]]
        [.dict [("name", .str k), ("type", tp)]] []
      pure (Py.dict kvs') : Except Err Py) = _
    rw [rowFold,
      show pySubscript (.dict [("name", .str k), ("type", tp)]) "name" =
        .ok (.str k) from rfl, except_ok_bind, hv, except_ok_bind,
      show pySubscript (.dict [("name", .str k), ("type", tp)]) "type" =
        .ok tp from rfl, except_ok_bind]
    by_cases hct : pyEqB tp (.str "array") <;>
      simp [coerceValue, hct, except_ok_bind, pure_eq, rowFold, dictSet]

/-- Witness for C7 at a concrete input: an empty dict row under a one-field
schema of type `int` emits the field as `None` without raising. -/
theorem missing_dict_key_best_effort_witness :
    get_avro_row_dict (.dict [])
      (.dict [("fields", .list [.dict [("name", .str "a"), ("type", .str "int")]])]) =
      .ok (.dict [("a", .none)]) := by
  have h := missing_dict_key_best_effort.2 [] "a" (.str "int") rfl
  rw [h]
  rfl

/-- Counterexample to C7 as stated: a dict row missing the field named `a`
whose declared type is the string `"array"` emits `[]`, not `None`. -/
theorem missing_dict_key_best_effort_cex :
    get_avro_row_dict (.dict [])
      (.dict [("fields", .list [.dict [("name", .str "a"), ("type", .str "array")]])]) =
      .ok (.dict [("a", .list [])]) ∧
    Py.list [] ≠ Py.none :=
  ⟨rfl, fun h => Py.noConfusion h⟩

/-! ## Claim C1 -/

/-- C1 (spec-modelled): the per-field override mechanism remaps both sides.
With an override for column name `n` carrying replacement type `t`, schema
generation for a column named `n` declared with any type `s` produces
exactly the schema of a column declared with type `t`; and row coercion
applies the override's coercion function to the field's (non-`None`) value
in place of the built-in coercion chain. -/
theorem mapping_overrides_remap_type_and_coercion (tn ns n s t : String) (f : Py → Py) :
    (get_avro_schema_ov tn ns
        [.dict [("name", .str n), ("type", .str s), ("nullable", .bool false)]]
        Option.none [(n, ⟨t, f⟩)] =
      get_avro_schema tn ns
        [.dict [("name", .str n), ("type", .str t), ("nullable", .bool false)]]
        Option.none) ∧
    (∀ (kvs : List (String × Py)) (k : String) (tp v : Py) (o : MappingOverride),
      sGet kvs k = some v → v.isNone = false →
      get_avro_row_dict_ov (.dict kvs)
        (.dict [("fields", .list [.dict [("name", .str k), ("type", tp)]])])
        [(k, o)] =
        .ok (.dict [(k, o.python_type v)])) := by
  constructor
  · simp [get_avro_schema_ov, get_avro_schema, schemaFieldsOv, schemaFields,
      normalizeColumn, _dict_to_column, _check_required_attributes,
      hasRequiredAttributes, REQUIRED_COLUMN_ATTRIBUTES, applyTypeOverride,
      mkColumnBag, sGet, dGet, dictSet, except_ok_bind, pure_eq]
  · intro kvs k tp v o h hnn
    have hv : _get_row_attr (.dict kvs) (.str k) [.dict [("name", .str k), ("type", tp)]] =
        .ok v := by
      simp [_get_row_attr, dictRowGet, dGet, h, pure_eq]
    rw [get_avro_row_dict_ov]
    rw [show pySubscript (.dict [("fields",
      .list [.dict [("name", .str k), ("type", tp)]])]) "fields" =
      .ok (.list [.dict [("name", .str k), ("type", tp)]]) from rfl, except_ok_bind]
    show (do
      let kvs' ← rowFoldOv (.dict kvs) [.dict [("name", .str k), ("type", tp)]] [(k, o)]
        [.dict [("name", .str k), ("type", tp)]] []
      pure (Py.dict kvs') : Except Err Py) = _
    rw [rowFoldOv,
      show pySubscript (.dict [("name", .str k), ("type", tp)]) "name" =
        .ok (.str k) from rfl, except_ok_bind, hv, except_ok_bind,
      show pySubscript (.dict [("name", .str k), ("type", tp)]) "type" =
        .ok tp from rfl, except_ok_bind]
    simp [sGet, hnn, rowFoldOv, dictSet, pure_eq, except_ok_bind]

/-- Witness for C1 at concrete inputs: overriding column `a` (declared
`int4`) to `varchar` yields the `varchar` schema, and the override's
coercion function is applied to the row value. -/
theorem mapping_overrides_remap_type_and_coercion_witness :
    get_avro_schema_ov "t" "n"
        [.dict [("name", .str "a"), ("type", .str "int4"), ("nullable", .bool false)]]
        Option.none [("a", ⟨"varchar", fun _ => .str "seven"⟩)] =
      pure (mkRecordSchema "t" "n" [.dict [("name", .str "a"), ("type", .str "string")]]) ∧
    get_avro_row_dict_ov (.dict [("a", .int 7)])
        (.dict [("fields", .list [.dict [("name", .str "a"), ("type", .str "string")]])])
        [("a", ⟨"varchar", fun _ => .str "seven"⟩)] =
      .ok (.dict [("a", .str "seven")]) := by
  constructor
  · exact (mapping_overrides_remap_type_and_coercion "t" "n" "a" "int4" "varchar"
      (fun _ => .str "seven")).1.trans (by rfl)
  · exact (mapping_overrides_remap_type_and_coercion "t" "n" "a" "int4" "varchar"
      (fun _ => .str "seven")).2 [("a", .int 7)] "a" (.str "string") (.int 7)
      ⟨"varchar", fun _ => .str "seven"⟩ rfl rfl

end Pg2Avro
